import Mathlib

/-!
# LwM2M IPSO filling-level sensor adapter

Shallow embedding of `source/lcz_lwm2m_fill_level.c`.

* The LwM2M engine and the object utility layer are external collaborators.
  They are taken as an environment `Env σ` of state-passing functions over an
  abstract engine state `σ`; every call made to them is recorded in a log.
* Object / resource identifiers, `ENOENT` and the build-time switch
  `CONFIG_LCZ_LWM2M_UTIL_CONFIG_DATA` come from headers outside the
  repository and are taken as parameters (`Ids`).
* C `float` / `double` arithmetic is modelled as IEEE 754 binary32 / binary64
  with round-to-nearest, ties-to-even, on exact rationals; each operation is
  evaluated in the format of its C type.
* The `LOG_ERR` / `LOG_DBG` statements are not modelled.
-/

set_option linter.unusedVariables false

namespace FillLevel

/-! ## Floating point -/

/-- Binary floating-point format: precision (bits of significand, hidden bit
included) and the range of the exponent of normal numbers. -/
structure Fmt where
  prec : ℕ
  emin : ℤ
  emax : ℤ

/-- IEEE 754 single precision, the C type `float`. -/
def binary32 : Fmt := ⟨24, -126, 127⟩

/-- IEEE 754 double precision, the C type `double`. -/
def binary64 : Fmt := ⟨53, -1022, 1023⟩

/-- Floating-point datum: a finite value, an infinity or a NaN.  The sign of
a zero is not tracked; every zero that this program computes comes from the
conversion of an unsigned integer and is `+0`. -/
inductive FP where
  | fin (q : ℚ)
  | inf (neg : Bool)
  | nan
deriving DecidableEq, Repr

/-- Nearest integer, ties to even. -/
def rne (x : ℚ) : ℤ :=
  if Int.fract x < 1 / 2 then ⌊x⌋
  else if 1 / 2 < Int.fract x then ⌊x⌋ + 1
  else if ⌊x⌋ % 2 = 0 then ⌊x⌋
  else ⌊x⌋ + 1

/-- Exponent of the unit in the last place used to represent `x`: the binade
of `x` (clamped below at `emin`, which gives the subnormal numbers) shifted by
the precision. -/
def Fmt.quantum (F : Fmt) (x : ℚ) : ℤ :=
  max (Int.log 2 |x|) F.emin - ((F.prec : ℤ) - 1)

/-- Round `x` to the nearest multiple of its quantum, ties to even
(exponent unbounded above). -/
def Fmt.roundQ (F : Fmt) (x : ℚ) : ℚ :=
  (rne (x / (2 : ℚ) ^ F.quantum x) : ℚ) * (2 : ℚ) ^ F.quantum x

/-- Round a real result to the format; a result that does not fit below
`2 ^ (emax + 1)` overflows to an infinity. -/
def Fmt.round (F : Fmt) (x : ℚ) : FP :=
  if |F.roundQ x| < (2 : ℚ) ^ (F.emax + 1) then FP.fin (F.roundQ x)
  else FP.inf (decide (x < 0))

/-- Floating-point division in format `F`. -/
def FP.div (F : Fmt) (x y : FP) : FP :=
  match x, y with
  | FP.nan, _ => FP.nan
  | _, FP.nan => FP.nan
  | FP.inf _, FP.inf _ => FP.nan
  | FP.inf s, FP.fin b => FP.inf (s != decide (b < 0))
  | FP.fin _, FP.inf _ => FP.fin 0
  | FP.fin a, FP.fin b =>
    if b = 0 then (if a = 0 then FP.nan else FP.inf (decide (a < 0)))
    else F.round (a / b)

/-- Floating-point multiplication in format `F`. -/
def FP.mul (F : Fmt) (x y : FP) : FP :=
  match x, y with
  | FP.nan, _ => FP.nan
  | _, FP.nan => FP.nan
  | FP.inf s, FP.inf t => FP.inf (s != t)
  | FP.inf s, FP.fin b => if b = 0 then FP.nan else FP.inf (s != decide (b < 0))
  | FP.fin a, FP.inf t => if a = 0 then FP.nan else FP.inf (decide (a < 0) != t)
  | FP.fin a, FP.fin b => F.round (a * b)

/-- The conversion `(float)n` of a `uint32_t`. -/
def u32_to_float (n : ℕ) : FP := binary32.round (n : ℚ)

/-- The promotion of a `float` to `double`; every binary32 datum is a
binary64 datum, so the value is unchanged. -/
def float_to_double (x : FP) : FP := x

/-- Subtraction of `uint32_t` operands. -/
def u32_sub (a b : ℕ) : ℕ := (a + 2 ^ 32 - b) % 2 ^ 32

/-! ## Environment -/

/-- Constants of headers that are not part of the repository. -/
structure Ids where
  IPSO_OBJECT_FILLING_LEVEL_SENSOR_ID : ℕ
  CONTAINER_HEIGHT_FILLING_SENSOR_RID : ℕ
  ACTUAL_FILL_PERCENTAGE_FILLING_SENSOR_RID : ℕ
  ACTUAL_FILL_LEVEL_FILLING_SENSOR_RID : ℕ
  HIGH_THRESHOLD_PERCENTAGE_FILLING_SENSOR_RID : ℕ
  LOW_THRESHOLD_PERCENTAGE_FILLING_SENSOR_RID : ℕ
  AVERAGE_FILL_SPEED_FILLING_SENSOR_RID : ℕ
  FORECAST_FULL_DATE_FILLING_SENSOR_RID : ℕ
  FORECAST_EMPTY_DATE_FILLING_SENSOR_RID : ℕ
  CONTAINER_OUT_OF_LOCATION_FILLING_SENSOR_RID : ℕ
  CONTAINER_OUT_OF_POSITION_FILLING_SENSOR_RID : ℕ
  ENOENT : ℤ
  CONFIG_LCZ_LWM2M_UTIL_CONFIG_DATA : Bool

/-- Post-write callbacks that this module hands to the utility layer. -/
inductive Callback where
  | fill_sensor_write_cb
deriving DecidableEq, Repr

/-- One call to the engine or to the object utility layer, with its
arguments. -/
inductive Call where
  | get_u32 (path : String)
  | set_u32 (path : String) (v : ℕ)
  | set_float (path : String) (v : FP)
  | manage_obj_instance (type : ℕ) (idx : ℤ) (offset : ℕ)
  | manage_obj_deletion (r : ℤ) (type : ℕ) (idx : ℤ) (inst : ℤ)
  | load_config (type inst res size : ℕ)
  | reg_post_write_cb (type inst res : ℕ) (cb : Callback)
  | del_res_inst (type inst res resInst : ℕ)
  | save_config (type inst res : ℕ) (data : List ℕ) (len : ℕ)
deriving DecidableEq, Repr

/-- The external collaborators, as functions on an abstract engine state.
`LCZ_SNPRINTK t i r` is the result code of formatting `"%u/%u/%u"` into the
path buffer; `lwm2m_engine_get_u32` yields a result code and the content of
the output variable after the call.  The results of the utility calls are
discarded by this module, so those are state transformers only. -/
structure Env (σ : Type) where
  LCZ_SNPRINTK : ℕ → ℕ → ℕ → ℤ
  lwm2m_engine_get_u32 : String → σ → ℤ × ℕ × σ
  lwm2m_engine_set_u32 : String → ℕ → σ → ℤ × σ
  lwm2m_engine_set_float : String → FP → σ → ℤ × σ
  lcz_lwm2m_util_manage_obj_instance : ℕ → ℤ → ℕ → σ → ℤ × σ
  lcz_lwm2m_util_manage_obj_deletion : ℤ → ℕ → ℤ → ℤ → σ → σ
  lcz_lwm2m_util_load_config : ℕ → ℕ → ℕ → ℕ → σ → σ
  lcz_lwm2m_util_reg_post_write_cb : ℕ → ℕ → ℕ → Callback → σ → σ
  lcz_lwm2m_util_del_res_inst : ℕ → ℕ → ℕ → ℕ → σ → σ
  lcz_lwm2m_util_save_config : ℕ → ℕ → ℕ → List ℕ → ℕ → σ → σ

/-- Outcome of an entry point: result code, the external calls it made in
order, and the engine state it leaves. -/
structure Outcome (σ : Type) where
  r : ℤ
  log : List Call
  st : σ

/-- The text that `"%u/%u/%u"` produces. -/
def fmtPath (type inst resource : ℕ) : String :=
  toString type ++ "/" ++ toString inst ++ "/" ++ toString resource

/-! ## The module -/

/-- The statement
`fill_percent = (double)(((float)level / (float)height) * 100.0)`. -/
def fill_percent (level height : ℕ) : FP :=
  FP.mul binary64
    (float_to_double (FP.div binary32 (u32_to_float level) (u32_to_float height)))
    (FP.fin 100)

/-- The clamped level: `if (distance >= height) level = 0; else level = height - distance`. -/
def fill_level (distance height : ℕ) : ℕ :=
  if distance ≥ height then 0 else u32_sub height distance

variable {σ : Type}

/-- Path of the container-height resource of an instance. -/
abbrev height_path (ids : Ids) (inst : ℕ) : String :=
  fmtPath ids.IPSO_OBJECT_FILLING_LEVEL_SENSOR_ID inst ids.CONTAINER_HEIGHT_FILLING_SENSOR_RID

/-- Path of the actual-fill-level resource of an instance. -/
abbrev level_path (ids : Ids) (inst : ℕ) : String :=
  fmtPath ids.IPSO_OBJECT_FILLING_LEVEL_SENSOR_ID inst ids.ACTUAL_FILL_LEVEL_FILLING_SENSOR_RID

/-- Path of the actual-fill-percentage resource of an instance. -/
abbrev percent_path (ids : Ids) (inst : ℕ) : String :=
  fmtPath ids.IPSO_OBJECT_FILLING_LEVEL_SENSOR_ID inst
    ids.ACTUAL_FILL_PERCENTAGE_FILLING_SENSOR_RID

/-- Embedding of `int lcz_lwm2m_fill_level_set(uint16_t instance, double value)`. -/
def lcz_lwm2m_fill_level_set (env : Env σ) (ids : Ids) (inst : ℕ) (value : FP) (s : σ) :
    Outcome σ :=
  let type := ids.IPSO_OBJECT_FILLING_LEVEL_SENSOR_ID
  let distance : ℕ := 10
  let resource := ids.CONTAINER_HEIGHT_FILLING_SENSOR_RID
  let r := env.LCZ_SNPRINTK type inst resource
  if r < 0 then ⟨r, [], s⟩
  else
    let hpath := fmtPath type inst resource
    let g := env.lwm2m_engine_get_u32 hpath s
    if g.1 ≠ 0 then ⟨-ids.ENOENT, [Call.get_u32 hpath], g.2.2⟩
    else
      let height := g.2.1 % 2 ^ 32
      let level := fill_level distance height
      let pct := fill_percent level height
      let resource := ids.ACTUAL_FILL_LEVEL_FILLING_SENSOR_RID
      let r := env.LCZ_SNPRINTK type inst resource
      if r < 0 then ⟨r, [Call.get_u32 hpath], g.2.2⟩
      else
        let lpath := fmtPath type inst resource
        let w := env.lwm2m_engine_set_u32 lpath level g.2.2
        let resource := ids.ACTUAL_FILL_PERCENTAGE_FILLING_SENSOR_RID
        let r := env.LCZ_SNPRINTK type inst resource
        if r < 0 then ⟨r, [Call.get_u32 hpath, Call.set_u32 lpath level], w.2⟩
        else
          let ppath := fmtPath type inst resource
          let f := env.lwm2m_engine_set_float ppath pct w.2
          ⟨f.1, [Call.get_u32 hpath, Call.set_u32 lpath level, Call.set_float ppath pct], f.2⟩

/-- The conversion of an `int` argument to a `uint16_t` parameter. -/
def int_to_u16 (i : ℤ) : ℕ := (i % 65536).toNat

/-- The answer of the object manager to
`lcz_lwm2m_util_manage_obj_instance(type, idx, offset)`: the instance (or a
negative code) and the state it leaves. -/
abbrev resolve (env : Env σ) (ids : Ids) (idx : ℤ) (offset : ℕ) (s : σ) : ℤ × σ :=
  env.lcz_lwm2m_util_manage_obj_instance ids.IPSO_OBJECT_FILLING_LEVEL_SENSOR_ID idx offset s

/-- The inner call `lcz_lwm2m_fill_level_set(instance, value)` of the managed
set operation, on the resolved instance. -/
abbrev inner_set (env : Env σ) (ids : Ids) (idx : ℤ) (offset : ℕ) (value : FP) (s : σ) :
    Outcome σ :=
  lcz_lwm2m_fill_level_set env ids (int_to_u16 (resolve env ids idx offset s).1) value
    (resolve env ids idx offset s).2

/-- Embedding of
`int lcz_lwm2m_managed_fill_level_set(int idx, uint16_t offset, double value)`. -/
def lcz_lwm2m_managed_fill_level_set (env : Env σ) (ids : Ids) (idx : ℤ) (offset : ℕ)
    (value : FP) (s : σ) : Outcome σ :=
  let type := ids.IPSO_OBJECT_FILLING_LEVEL_SENSOR_ID
  let m := env.lcz_lwm2m_util_manage_obj_instance type idx offset s
  let inst := m.1
  if inst < 0 then ⟨inst, [Call.manage_obj_instance type idx offset], m.2⟩
  else
    let o := lcz_lwm2m_fill_level_set env ids (int_to_u16 inst) value m.2
    let s2 := env.lcz_lwm2m_util_manage_obj_deletion o.r type idx inst o.st
    ⟨o.r,
      Call.manage_obj_instance type idx offset :: o.log ++
        [Call.manage_obj_deletion o.r type idx inst],
      s2⟩

/-- The calls of the `IS_ENABLED(CONFIG_LCZ_LWM2M_UTIL_CONFIG_DATA)` block of
`create_fill_level_sensor`, with the state they leave. -/
def restore_and_register (env : Env σ) (ids : Ids) (type inst : ℕ) (s : σ) : List Call × σ :=
  let height := ids.CONTAINER_HEIGHT_FILLING_SENSOR_RID
  let high := ids.HIGH_THRESHOLD_PERCENTAGE_FILLING_SENSOR_RID
  let low := ids.LOW_THRESHOLD_PERCENTAGE_FILLING_SENSOR_RID
  let s := env.lcz_lwm2m_util_load_config type inst height 4 s
  let s := env.lcz_lwm2m_util_load_config type inst high 8 s
  let s := env.lcz_lwm2m_util_load_config type inst low 8 s
  let s := env.lcz_lwm2m_util_reg_post_write_cb type inst height Callback.fill_sensor_write_cb s
  let s := env.lcz_lwm2m_util_reg_post_write_cb type inst high Callback.fill_sensor_write_cb s
  let s := env.lcz_lwm2m_util_reg_post_write_cb type inst low Callback.fill_sensor_write_cb s
  ([Call.load_config type inst height 4, Call.load_config type inst high 8,
    Call.load_config type inst low 8,
    Call.reg_post_write_cb type inst height Callback.fill_sensor_write_cb,
    Call.reg_post_write_cb type inst high Callback.fill_sensor_write_cb,
    Call.reg_post_write_cb type inst low Callback.fill_sensor_write_cb], s)

/-- Embedding of
`static int create_fill_level_sensor(int idx, uint16_t type, uint16_t instance, void *context)`;
`idx` and `context` are unused. -/
def create_fill_level_sensor (env : Env σ) (ids : Ids) (idx : ℤ) (type inst : ℕ) (s : σ) :
    Outcome σ :=
  let c : List Call × σ :=
    if ids.CONFIG_LCZ_LWM2M_UTIL_CONFIG_DATA then restore_and_register env ids type inst s
    else ([], s)
  let s := c.2
  let s := env.lcz_lwm2m_util_del_res_inst type inst ids.AVERAGE_FILL_SPEED_FILLING_SENSOR_RID 0 s
  let s := env.lcz_lwm2m_util_del_res_inst type inst ids.FORECAST_FULL_DATE_FILLING_SENSOR_RID 0 s
  let s := env.lcz_lwm2m_util_del_res_inst type inst ids.FORECAST_EMPTY_DATE_FILLING_SENSOR_RID 0 s
  let s :=
    env.lcz_lwm2m_util_del_res_inst type inst ids.CONTAINER_OUT_OF_LOCATION_FILLING_SENSOR_RID 0 s
  let s :=
    env.lcz_lwm2m_util_del_res_inst type inst ids.CONTAINER_OUT_OF_POSITION_FILLING_SENSOR_RID 0 s
  ⟨0,
    c.1 ++
      [Call.del_res_inst type inst ids.AVERAGE_FILL_SPEED_FILLING_SENSOR_RID 0,
       Call.del_res_inst type inst ids.FORECAST_FULL_DATE_FILLING_SENSOR_RID 0,
       Call.del_res_inst type inst ids.FORECAST_EMPTY_DATE_FILLING_SENSOR_RID 0,
       Call.del_res_inst type inst ids.CONTAINER_OUT_OF_LOCATION_FILLING_SENSOR_RID 0,
       Call.del_res_inst type inst ids.CONTAINER_OUT_OF_POSITION_FILLING_SENSOR_RID 0],
    s⟩

/-- Embedding of `static int fill_sensor_write_cb(...)`: the written bytes go to
the persistence layer when it is enabled. -/
def fill_sensor_write_cb (env : Env σ) (ids : Ids) (obj_inst_id res_id res_inst_id : ℕ)
    (data : List ℕ) (data_len : ℕ) (last_block : Bool) (total_size : ℕ) (s : σ) : Outcome σ :=
  if ids.CONFIG_LCZ_LWM2M_UTIL_CONFIG_DATA then
    ⟨0, [Call.save_config ids.IPSO_OBJECT_FILLING_LEVEL_SENSOR_ID obj_inst_id res_id data data_len],
      env.lcz_lwm2m_util_save_config ids.IPSO_OBJECT_FILLING_LEVEL_SENSOR_ID obj_inst_id res_id
        data data_len s⟩
  else ⟨0, [], s⟩

/-! ## Concrete collaborators for the runs below -/

/-- Identifier values of the OMA filling-sensor object 3435 and `ENOENT = 2`. -/
def sampleIds (cfg : Bool) : Ids :=
  ⟨3435, 1, 2, 3, 4, 6, 8, 10, 11, 12, 13, 2, cfg⟩

/-- A scripted engine whose state counts the calls served: formatting always
succeeds, the height read answers `readCode` and `height`, the two writes answer
`levelCode` and `pctCode`, instance resolution answers `resolved`. -/
def sampleEnv (readCode : ℤ) (height : ℕ) (levelCode pctCode resolved : ℤ) : Env ℕ where
  LCZ_SNPRINTK := fun _ _ _ => 0
  lwm2m_engine_get_u32 := fun _ s => (readCode, height, s + 1)
  lwm2m_engine_set_u32 := fun _ _ s => (levelCode, s + 1)
  lwm2m_engine_set_float := fun _ _ s => (pctCode, s + 1)
  lcz_lwm2m_util_manage_obj_instance := fun _ _ _ s => (resolved, s + 1)
  lcz_lwm2m_util_manage_obj_deletion := fun _ _ _ _ s => s + 1
  lcz_lwm2m_util_load_config := fun _ _ _ _ s => s + 1
  lcz_lwm2m_util_reg_post_write_cb := fun _ _ _ _ s => s + 1
  lcz_lwm2m_util_del_res_inst := fun _ _ _ _ s => s + 1
  lcz_lwm2m_util_save_config := fun _ _ _ _ _ s => s + 1

/-- The environment `env` with the result code of the level write replaced by
`c`; its effect on the engine state is unchanged. -/
def Env.withLevelWriteCode (env : Env σ) (c : String → ℕ → σ → ℤ) : Env σ :=
  { env with
    lwm2m_engine_set_u32 := fun p v s => (c p v s, (env.lwm2m_engine_set_u32 p v s).2) }

/-- Whether a call is a write of a resource value. -/
def Call.isWrite : Call → Bool
  | Call.set_u32 _ _ => true
  | Call.set_float _ _ => true
  | _ => false

/-- Whether a call reads the engine. -/
def Call.isRead : Call → Bool
  | Call.get_u32 _ => true
  | _ => false

/-- Whether a call is the deletion-policy call of the object manager. -/
def Call.isDeletion : Call → Bool
  | Call.manage_obj_deletion _ _ _ _ => true
  | _ => false

/-- Whether a call deletes a resource instance. -/
def Call.isDelResInst : Call → Bool
  | Call.del_res_inst _ _ _ _ => true
  | _ => false

/-- Whether a call loads persisted configuration. -/
def Call.isLoad : Call → Bool
  | Call.load_config _ _ _ _ => true
  | _ => false

/-- Whether a call registers a post-write callback. -/
def Call.isRegister : Call → Bool
  | Call.reg_post_write_cb _ _ _ _ => true
  | _ => false

/-! ## Nearest integer, ties to even -/

theorem floor_le_rne (x : ℚ) : ⌊x⌋ ≤ rne x := by
  unfold rne; split_ifs <;> omega

theorem rne_le_floor_add_one (x : ℚ) : rne x ≤ ⌊x⌋ + 1 := by
  unfold rne; split_ifs <;> omega

theorem rne_intCast (n : ℤ) : rne (n : ℚ) = n := by
  unfold rne; simp

theorem rne_mono {x y : ℚ} (h : x ≤ y) : rne x ≤ rne y := by
  rcases (Int.floor_mono h).lt_or_eq with hlt | heq
  · calc rne x ≤ ⌊x⌋ + 1 := rne_le_floor_add_one x
      _ ≤ ⌊y⌋ := hlt
      _ ≤ rne y := floor_le_rne y
  · have hf : Int.fract x ≤ Int.fract y := by
      unfold Int.fract; rw [heq]; linarith
    unfold rne
    rw [heq]
    split_ifs <;> first | omega | (exfalso; linarith)

theorem abs_rne_sub_le (x : ℚ) : |(rne x : ℚ) - x| ≤ 1 / 2 := by
  have h0 := Int.fract_nonneg x
  have h1 := Int.fract_lt_one x
  have hx : x = ⌊x⌋ + Int.fract x := (Int.floor_add_fract x).symm
  rw [abs_le]
  unfold rne
  split_ifs <;> push_cast <;> constructor <;> linarith

/-! ## Rounding to a format -/

theorem two_zpow_pos (k : ℤ) : (0 : ℚ) < (2 : ℚ) ^ k := zpow_pos (by norm_num) k

theorem two_zpow_le {m n : ℤ} (h : m ≤ n) : (2 : ℚ) ^ m ≤ (2 : ℚ) ^ n :=
  zpow_le_zpow_right₀ (by norm_num) h

theorem log_two_eq {x : ℚ} {e : ℤ} (hlo : (2 : ℚ) ^ e ≤ x) (hhi : x < (2 : ℚ) ^ (e + 1)) :
    Int.log 2 x = e := by
  have hx : 0 < x := lt_of_lt_of_le (two_zpow_pos e) hlo
  have h1 : e ≤ Int.log 2 x := by
    rw [← Int.zpow_le_iff_le_log (by norm_num) hx]; exact_mod_cast hlo
  have h2 : Int.log 2 x < e + 1 := by
    rw [← Int.lt_zpow_iff_log_lt (by norm_num) hx]; exact_mod_cast hhi
  omega

theorem zpow_log_le {x : ℚ} (hx : 0 < x) : (2 : ℚ) ^ Int.log 2 x ≤ x := by
  have := Int.zpow_log_le_self (b := 2) (by norm_num) hx
  exact_mod_cast this

theorem lt_zpow_log_succ (x : ℚ) : x < (2 : ℚ) ^ (Int.log 2 x + 1) := by
  have := Int.lt_zpow_succ_log_self (b := 2) (by norm_num) x
  exact_mod_cast this

theorem Fmt.roundQ_zero (F : Fmt) : F.roundQ 0 = 0 := by
  simp [Fmt.roundQ, rne]

theorem Fmt.roundQ_nonneg (F : Fmt) {x : ℚ} (hx : 0 ≤ x) : 0 ≤ F.roundQ x := by
  unfold Fmt.roundQ
  have hq := two_zpow_pos (F.quantum x)
  have h0 : (0 : ℤ) ≤ rne (x / (2 : ℚ) ^ F.quantum x) := by
    have := rne_mono (div_nonneg hx hq.le)
    simpa [rne] using this
  have : (0 : ℚ) ≤ (rne (x / (2 : ℚ) ^ F.quantum x) : ℚ) := by exact_mod_cast h0
  positivity

/-- Absolute error of rounding: half a unit in the last place. -/
theorem Fmt.abs_roundQ_sub_le (F : Fmt) (x : ℚ) :
    |F.roundQ x - x| ≤ (2 : ℚ) ^ F.quantum x / 2 := by
  have hq := two_zpow_pos (F.quantum x)
  have h := abs_rne_sub_le (x / (2 : ℚ) ^ F.quantum x)
  have e : F.roundQ x - x =
      ((rne (x / (2 : ℚ) ^ F.quantum x) : ℚ) - x / (2 : ℚ) ^ F.quantum x) *
        (2 : ℚ) ^ F.quantum x := by
    unfold Fmt.roundQ; field_simp
  rw [e, abs_mul, abs_of_pos hq]
  calc _ ≤ 1 / 2 * (2 : ℚ) ^ F.quantum x := mul_le_mul_of_nonneg_right h hq.le
    _ = _ := by ring

/-- A value that is an integer multiple of its own quantum is not changed. -/
theorem Fmt.roundQ_exact (F : Fmt) (x : ℚ) (n : ℤ) (h : x = n * (2 : ℚ) ^ F.quantum x) :
    F.roundQ x = x := by
  have hq := two_zpow_pos (F.quantum x)
  have : x / (2 : ℚ) ^ F.quantum x = n := by
    rw [div_eq_iff hq.ne']; exact h
  unfold Fmt.roundQ
  rw [this, rne_intCast]; exact h.symm

theorem Fmt.quantum_of_log (F : Fmt) {x : ℚ} {e : ℤ} (hlo : (2 : ℚ) ^ e ≤ x)
    (hhi : x < (2 : ℚ) ^ (e + 1)) : F.quantum x = max e F.emin - ((F.prec : ℤ) - 1) := by
  have hx : 0 < x := lt_of_lt_of_le (two_zpow_pos e) hlo
  unfold Fmt.quantum
  rw [abs_of_pos hx, log_two_eq hlo hhi]

/-- Relative error of rounding in the range of normal numbers. -/
theorem Fmt.abs_roundQ_sub_le_rel (F : Fmt) {x : ℚ} (hx : (2 : ℚ) ^ F.emin ≤ x) :
    |F.roundQ x - x| ≤ x / (2 : ℚ) ^ F.prec := by
  have hx0 : 0 < x := lt_of_lt_of_le (two_zpow_pos _) hx
  have he : F.emin ≤ Int.log 2 x := by
    rw [← Int.zpow_le_iff_le_log (by norm_num) hx0]; exact_mod_cast hx
  have hq : F.quantum x = Int.log 2 x - ((F.prec : ℤ) - 1) := by
    unfold Fmt.quantum; rw [abs_of_pos hx0, max_eq_left he]
  refine (F.abs_roundQ_sub_le x).trans ?_
  rw [hq]
  have e1 : (2 : ℚ) ^ (Int.log 2 x - ((F.prec : ℤ) - 1)) / 2 =
      (2 : ℚ) ^ Int.log 2 x / (2 : ℚ) ^ F.prec := by
    rw [zpow_sub₀ (by norm_num), zpow_sub₀ (by norm_num), zpow_natCast]
    field_simp
    ring
  rw [e1]
  exact div_le_div_of_nonneg_right (zpow_log_le hx0) (by positivity)

/-- A positive value is rounded to at most the top of its binade. -/
theorem Fmt.roundQ_le_binade (F : Fmt) {x : ℚ} (hx : 0 < x) :
    F.roundQ x ≤ (2 : ℚ) ^ (max (Int.log 2 x) F.emin + 1) := by
  have hqd : F.quantum x = max (Int.log 2 x) F.emin - ((F.prec : ℤ) - 1) := by
    unfold Fmt.quantum; rw [abs_of_pos hx]
  have hq := two_zpow_pos (F.quantum x)
  have hxlt : x ≤ (2 : ℚ) ^ (max (Int.log 2 x) F.emin + 1) :=
    (lt_zpow_log_succ x).le.trans (two_zpow_le (by omega))
  have hsplit : (2 : ℚ) ^ (max (Int.log 2 x) F.emin + 1) =
      (((2 : ℤ) ^ F.prec : ℤ) : ℚ) * (2 : ℚ) ^ F.quantum x := by
    rw [hqd]; push_cast
    rw [← zpow_natCast, ← zpow_add₀ (by norm_num)]
    congr 1; ring
  have hdiv : x / (2 : ℚ) ^ F.quantum x ≤ (((2 : ℤ) ^ F.prec : ℤ) : ℚ) := by
    rw [div_le_iff₀ hq, ← hsplit]; exact hxlt
  have hr := rne_mono hdiv
  rw [rne_intCast] at hr
  have hr' : (rne (x / (2 : ℚ) ^ F.quantum x) : ℚ) ≤ (((2 : ℤ) ^ F.prec : ℤ) : ℚ) := by
    exact_mod_cast hr
  rw [hsplit]
  unfold Fmt.roundQ
  exact mul_le_mul_of_nonneg_right hr' hq.le

/-- A normal value is rounded to at least the bottom of its binade. -/
theorem Fmt.binade_le_roundQ (F : Fmt) (hp : 1 ≤ F.prec) {x : ℚ} (hx : 0 < x)
    (he : F.emin ≤ Int.log 2 x) : (2 : ℚ) ^ Int.log 2 x ≤ F.roundQ x := by
  have hqd : F.quantum x = Int.log 2 x - ((F.prec : ℤ) - 1) := by
    unfold Fmt.quantum; rw [abs_of_pos hx, max_eq_left he]
  have hq := two_zpow_pos (F.quantum x)
  have hsplit : (2 : ℚ) ^ Int.log 2 x =
      (((2 : ℤ) ^ (F.prec - 1) : ℤ) : ℚ) * (2 : ℚ) ^ F.quantum x := by
    rw [hqd]; push_cast
    rw [← zpow_natCast, ← zpow_add₀ (by norm_num)]
    congr 1
    rw [Nat.cast_sub hp]; push_cast; ring
  have hdiv : (((2 : ℤ) ^ (F.prec - 1) : ℤ) : ℚ) ≤ x / (2 : ℚ) ^ F.quantum x := by
    rw [le_div_iff₀ hq, ← hsplit]; exact zpow_log_le hx
  have hr := rne_mono hdiv
  rw [rne_intCast] at hr
  have hr' : (((2 : ℤ) ^ (F.prec - 1) : ℤ) : ℚ) ≤ (rne (x / (2 : ℚ) ^ F.quantum x) : ℚ) := by
    exact_mod_cast hr
  rw [hsplit]
  unfold Fmt.roundQ
  exact mul_le_mul_of_nonneg_right hr' hq.le

/-- Rounding is monotone on the non-negative values. -/
theorem Fmt.roundQ_mono (F : Fmt) (hp : 1 ≤ F.prec) {x y : ℚ} (hx : 0 ≤ x) (hxy : x ≤ y) :
    F.roundQ x ≤ F.roundQ y := by
  rcases hx.lt_or_eq with hx0 | rfl
  swap
  · rw [F.roundQ_zero]; exact F.roundQ_nonneg hxy
  have hy0 : 0 < y := lt_of_lt_of_le hx0 hxy
  have hlog : Int.log 2 x ≤ Int.log 2 y := Int.log_mono_right hx0 hxy
  by_cases hm : max (Int.log 2 x) F.emin = max (Int.log 2 y) F.emin
  · have hq : F.quantum x = F.quantum y := by
      unfold Fmt.quantum; rw [abs_of_pos hx0, abs_of_pos hy0, hm]
    have hqp := two_zpow_pos (F.quantum y)
    unfold Fmt.roundQ
    rw [hq]
    have hr := rne_mono (div_le_div_of_nonneg_right hxy hqp.le)
    have hr' : (rne (x / (2 : ℚ) ^ F.quantum y) : ℚ) ≤ (rne (y / (2 : ℚ) ^ F.quantum y) : ℚ) := by
      exact_mod_cast hr
    exact mul_le_mul_of_nonneg_right hr' hqp.le
  · have h1 : max (Int.log 2 x) F.emin + 1 ≤ Int.log 2 y := by
      omega
    have h2 : F.emin ≤ Int.log 2 y := by
      have := le_max_right (Int.log 2 x) F.emin; omega
    calc F.roundQ x ≤ (2 : ℚ) ^ (max (Int.log 2 x) F.emin + 1) := F.roundQ_le_binade hx0
      _ ≤ (2 : ℚ) ^ Int.log 2 y := two_zpow_le h1
      _ ≤ F.roundQ y := F.binade_le_roundQ hp hy0 h2

theorem Fmt.roundQ_zpow (F : Fmt) (hp : 1 ≤ F.prec) {k : ℤ} (hk : F.emin ≤ k) :
    F.roundQ ((2 : ℚ) ^ k) = (2 : ℚ) ^ k := by
  have hq : F.quantum ((2 : ℚ) ^ k) = k - ((F.prec : ℤ) - 1) := by
    rw [F.quantum_of_log (e := k) le_rfl (zpow_lt_zpow_right₀ (by norm_num) (by omega)),
      max_eq_left hk]
  refine F.roundQ_exact _ ((2 : ℤ) ^ (F.prec - 1)) ?_
  rw [hq]; push_cast
  rw [← zpow_natCast, ← zpow_add₀ (by norm_num)]
  congr 1
  rw [Nat.cast_sub hp]; push_cast; ring

theorem binary32_roundQ_one : binary32.roundQ 1 = 1 := by
  have := binary32.roundQ_zpow (by decide) (k := 0) (by decide)
  simpa using this

theorem binary32_roundQ_two_pow_32 : binary32.roundQ 4294967296 = 4294967296 := by
  have := binary32.roundQ_zpow (by decide) (k := 32) (by decide)
  norm_num at this
  exact this

theorem binary64_roundQ_hundred : binary64.roundQ 100 = 100 := by
  have hq : binary64.quantum 100 = -46 := by
    rw [binary64.quantum_of_log (e := 6) (by norm_num) (by norm_num)]
    decide
  refine binary64.roundQ_exact _ (100 * 2 ^ 46) ?_
  rw [hq]; norm_num

theorem Fmt.round_eq_fin (F : Fmt) {x : ℚ} (h : |F.roundQ x| < (2 : ℚ) ^ (F.emax + 1)) :
    F.round x = FP.fin (F.roundQ x) := if_pos h

theorem Fmt.round_eq_fin_of_le (F : Fmt) (hp : 1 ≤ F.prec) {x c : ℚ} (hx : 0 ≤ x) (hxc : x ≤ c)
    (hc : F.roundQ c = c) (hlt : c < (2 : ℚ) ^ (F.emax + 1)) :
    F.round x = FP.fin (F.roundQ x) := by
  apply F.round_eq_fin
  rw [abs_of_nonneg (F.roundQ_nonneg hx)]
  calc F.roundQ x ≤ F.roundQ c := F.roundQ_mono hp hx hxc
    _ = c := hc
    _ < _ := hlt

/-- The conversion of a `uint32_t` to `float` is finite, at most `2 ^ 32` and monotone. -/
theorem u32_to_float_eq {n : ℕ} (hn : n < 2 ^ 32) :
    u32_to_float n = FP.fin (binary32.roundQ n) := by
  have h1 : (n : ℚ) ≤ 4294967296 := by
    have : n ≤ 4294967296 := by omega
    exact_mod_cast this
  exact binary32.round_eq_fin_of_le (by decide) (Nat.cast_nonneg n) h1
    binary32_roundQ_two_pow_32 (by norm_num [binary32])

theorem roundQ_u32_le {n : ℕ} (hn : n < 2 ^ 32) : binary32.roundQ n ≤ 4294967296 := by
  have h1 : (n : ℚ) ≤ 4294967296 := by
    have : n ≤ 4294967296 := by omega
    exact_mod_cast this
  have := binary32.roundQ_mono (by decide) (Nat.cast_nonneg n) h1
  rwa [binary32_roundQ_two_pow_32] at this

theorem one_le_roundQ_u32 {n : ℕ} (hn : 1 ≤ n) : 1 ≤ binary32.roundQ n := by
  have h1 : (1 : ℚ) ≤ n := by exact_mod_cast hn
  have := binary32.roundQ_mono (by decide) (by norm_num) h1
  rwa [binary32_roundQ_one] at this

/-- The quotient `(float)level / (float)height` for `level ≤ height`, `height ≠ 0`. -/
theorem ratio_bounds {l h : ℕ} (hh : 1 ≤ h) (hlh : l ≤ h) :
    0 ≤ binary32.roundQ l / binary32.roundQ h ∧ binary32.roundQ l / binary32.roundQ h ≤ 1 := by
  have hb := one_le_roundQ_u32 hh
  have ha : 0 ≤ binary32.roundQ l := binary32.roundQ_nonneg (Nat.cast_nonneg l)
  have hab : binary32.roundQ l ≤ binary32.roundQ h :=
    binary32.roundQ_mono (by decide) (Nat.cast_nonneg l) (by exact_mod_cast hlh)
  constructor
  · exact div_nonneg ha (by linarith)
  · rw [div_le_one (by linarith)]; exact hab

theorem float_ratio_bounds {l h : ℕ} (hh : 1 ≤ h) (hlh : l ≤ h) :
    0 ≤ binary32.roundQ (binary32.roundQ l / binary32.roundQ h) ∧
      binary32.roundQ (binary32.roundQ l / binary32.roundQ h) ≤ 1 := by
  obtain ⟨h0, h1⟩ := ratio_bounds hh hlh
  refine ⟨binary32.roundQ_nonneg h0, ?_⟩
  have := binary32.roundQ_mono (by decide) h0 h1
  rwa [binary32_roundQ_one] at this

/-- For a non-zero height and a level that does not exceed it, the percentage
is the finite value obtained by three roundings. -/
theorem fill_percent_eq {l h : ℕ} (hh : 1 ≤ h) (hh2 : h < 2 ^ 32) (hlh : l ≤ h) :
    fill_percent l h =
      FP.fin (binary64.roundQ
        (binary32.roundQ (binary32.roundQ l / binary32.roundQ h) * 100)) := by
  have hb := one_le_roundQ_u32 hh
  obtain ⟨h0, h1⟩ := ratio_bounds hh hlh
  obtain ⟨c0, c1⟩ := float_ratio_bounds hh hlh
  have hb0 : binary32.roundQ (h : ℚ) ≠ 0 := by linarith
  have hdiv : FP.div binary32 (FP.fin (binary32.roundQ l)) (FP.fin (binary32.roundQ h)) =
      FP.fin (binary32.roundQ (binary32.roundQ l / binary32.roundQ h)) := by
    simp only [FP.div, if_neg hb0]
    exact binary32.round_eq_fin_of_le (by decide) h0 h1 binary32_roundQ_one
      (by norm_num [binary32])
  unfold fill_percent float_to_double
  rw [u32_to_float_eq (lt_of_le_of_lt hlh hh2), u32_to_float_eq hh2, hdiv]
  simp only [FP.mul]
  exact binary64.round_eq_fin_of_le (by decide) (by positivity) (by linarith)
    binary64_roundQ_hundred (by norm_num [binary64])

theorem fill_percent_value_bounds {l h : ℕ} (hh : 1 ≤ h) (hlh : l ≤ h) :
    0 ≤ binary64.roundQ (binary32.roundQ (binary32.roundQ l / binary32.roundQ h) * 100) ∧
      binary64.roundQ (binary32.roundQ (binary32.roundQ l / binary32.roundQ h) * 100) ≤ 100 := by
  obtain ⟨c0, c1⟩ := float_ratio_bounds hh hlh
  refine ⟨binary64.roundQ_nonneg (by positivity), ?_⟩
  have := binary64.roundQ_mono (by decide) (by positivity)
    (show binary32.roundQ (binary32.roundQ l / binary32.roundQ h) * 100 ≤ 100 by linarith)
  rwa [binary64_roundQ_hundred] at this

theorem fill_percent_zero_level {h : ℕ} (hh : 1 ≤ h) (hh2 : h < 2 ^ 32) :
    fill_percent 0 h = FP.fin 0 := by
  rw [fill_percent_eq hh hh2 (Nat.zero_le h)]
  simp [Fmt.roundQ_zero]

theorem fill_percent_zero_zero : fill_percent 0 0 = FP.nan := by
  have h0 : u32_to_float 0 = FP.fin 0 := by
    have := u32_to_float_eq (n := 0) (by norm_num)
    simpa [Fmt.roundQ_zero] using this
  unfold fill_percent float_to_double
  rw [h0]
  simp [FP.div, FP.mul]

theorem rel_err32 {x : ℚ} (hx : 1 / 2 ^ 126 ≤ x) :
    x * (1 - 1 / 16777216) ≤ binary32.roundQ x ∧ binary32.roundQ x ≤ x * (1 + 1 / 16777216) := by
  have h := binary32.abs_roundQ_sub_le_rel (x := x) (by
    have : (2 : ℚ) ^ binary32.emin = 1 / 2 ^ 126 := by
      show (2 : ℚ) ^ (-126 : ℤ) = 1 / 2 ^ 126
      rw [zpow_neg, one_div, ← zpow_natCast]; norm_num
    rw [this]; exact hx)
  have hp : (2 : ℚ) ^ binary32.prec = 16777216 := by
    show (2 : ℚ) ^ 24 = 16777216
    norm_num
  rw [hp, abs_le] at h
  constructor <;> linarith [h.1, h.2]

theorem rel_err64 {x : ℚ} (hx : 1 / 2 ^ 1022 ≤ x) :
    x * (1 - 1 / 9007199254740992) ≤ binary64.roundQ x ∧
      binary64.roundQ x ≤ x * (1 + 1 / 9007199254740992) := by
  have h := binary64.abs_roundQ_sub_le_rel (x := x) (by
    have : (2 : ℚ) ^ binary64.emin = 1 / 2 ^ 1022 := by
      show (2 : ℚ) ^ (-1022 : ℤ) = 1 / 2 ^ 1022
      rw [zpow_neg, one_div, ← zpow_natCast]; norm_num
    rw [this]; exact hx)
  have hp : (2 : ℚ) ^ binary64.prec = 9007199254740992 := by
    show (2 : ℚ) ^ 53 = 9007199254740992
    norm_num
  rw [hp, abs_le] at h
  constructor <;> linarith [h.1, h.2]

/-- Accuracy of the percentage: the three roundings together change the exact
quotient `100 * level / height` by a relative error of at most `2 ^ (-22)`. -/
theorem fill_percent_value_accuracy {l h : ℕ} (hl : 1 ≤ l) (hlh : l ≤ h) (hh2 : h < 2 ^ 32) :
    |binary64.roundQ (binary32.roundQ (binary32.roundQ l / binary32.roundQ h) * 100) -
        100 * (l : ℚ) / h| ≤ 100 * (l : ℚ) / h / 4194304 := by
  have hh : 1 ≤ h := le_trans hl hlh
  have hlq : (1 : ℚ) ≤ l := by exact_mod_cast hl
  have hhq : (1 : ℚ) ≤ h := by exact_mod_cast hh
  have hsmall32 : (1 : ℚ) / 2 ^ 126 ≤ 1 / 4294967296 := by norm_num
  have hsmall64 : (1 : ℚ) / 2 ^ 1022 ≤ 1 / 4294967296 := by
    rw [one_div_le_one_div (by positivity) (by positivity)]
    calc (4294967296 : ℚ) = 2 ^ 32 := by norm_num
      _ ≤ 2 ^ 1022 := pow_le_pow_right₀ (by norm_num) (by norm_num)
  obtain ⟨ha1, ha2⟩ := rel_err32 (x := (l : ℚ)) (by linarith [hsmall32])
  obtain ⟨hb1, hb2⟩ := rel_err32 (x := (h : ℚ)) (by linarith [hsmall32])
  have ha : 1 ≤ binary32.roundQ l := one_le_roundQ_u32 hl
  have hb : 1 ≤ binary32.roundQ h := one_le_roundQ_u32 hh
  have hbu : binary32.roundQ h ≤ 4294967296 := roundQ_u32_le hh2
  -- the exact quotient of the two converted operands
  have hr_lo : (1 : ℚ) / 4294967296 ≤ binary32.roundQ l / binary32.roundQ h := by
    rw [div_le_div_iff₀ (by norm_num) (by linarith)]; linarith
  have hE0 : (0 : ℚ) < (l : ℚ) / h := by positivity
  have hr1 : (l : ℚ) / h * (16777215 / 16777217) ≤ binary32.roundQ l / binary32.roundQ h := by
    have e : (l : ℚ) / h * (16777215 / 16777217) =
        ((l : ℚ) * (1 - 1 / 16777216)) / ((h : ℚ) * (1 + 1 / 16777216)) := by
      field_simp; ring
    rw [e]
    exact div_le_div₀ (by linarith) ha1 (by linarith) hb2
  have hr2 : binary32.roundQ l / binary32.roundQ h ≤ (l : ℚ) / h * (16777217 / 16777215) := by
    have e : (l : ℚ) / h * (16777217 / 16777215) =
        ((l : ℚ) * (1 + 1 / 16777216)) / ((h : ℚ) * (1 - 1 / 16777216)) := by
      field_simp; ring
    rw [e]
    exact div_le_div₀ (by positivity) ha2 (by linarith) hb1
  -- the rounded quotient
  obtain ⟨hc1, hc2⟩ := rel_err32 (x := binary32.roundQ l / binary32.roundQ h)
    (by linarith [hsmall32])
  have hc_lo : (1 : ℚ) / 4294967296 ≤
      binary32.roundQ (binary32.roundQ l / binary32.roundQ h) := by
    have := binary32.roundQ_mono (by decide) (by norm_num) hr_lo
    have e : binary32.roundQ (1 / 4294967296) = 1 / 4294967296 := by
      have := binary32.roundQ_zpow (by decide) (k := -32) (by decide)
      have e2 : (2 : ℚ) ^ (-32 : ℤ) = 1 / 4294967296 := by
        rw [zpow_neg, one_div]; norm_num
      rwa [e2] at this
    rwa [e] at this
  -- the product with 100
  obtain ⟨hd1, hd2⟩ := rel_err64
    (x := binary32.roundQ (binary32.roundQ l / binary32.roundQ h) * 100)
    (by linarith [hsmall64])
  have hE : 100 * (l : ℚ) / h = 100 * ((l : ℚ) / h) := by ring
  rw [hE, abs_le]
  constructor <;> linarith

/-! ## The percentage of a height of 100 -/

theorem rne_eq_of_abs_sub_lt {x : ℚ} {n : ℤ} (h : |x - n| < 1 / 2) : rne x = n := by
  rw [abs_lt] at h
  obtain ⟨h1, h2⟩ := h
  rcases le_or_lt (n : ℚ) x with hx | hx
  · have hf : ⌊x⌋ = n := by
      rw [Int.floor_eq_iff]; constructor <;> linarith
    have hfr : Int.fract x < 1 / 2 := by
      unfold Int.fract; rw [hf]; linarith
    unfold rne
    rw [if_pos hfr, hf]
  · have hf : ⌊x⌋ = n - 1 := by
      rw [Int.floor_eq_iff]; push_cast; constructor <;> linarith
    have hfr : 1 / 2 < Int.fract x := by
      unfold Int.fract; rw [hf]; push_cast; linarith
    unfold rne
    rw [if_neg (not_lt.mpr hfr.le), if_pos hfr, hf]
    omega

theorem binary32_roundQ_nine_tenths :
    binary32.roundQ (9 / 10) = 15099494 / 16777216 := by
  have hq : binary32.quantum (9 / 10) = -24 := by
    rw [binary32.quantum_of_log (e := -1) (by norm_num) (by norm_num)]
    decide
  have hr : rne ((9 / 10 : ℚ) / (2 : ℚ) ^ (-24 : ℤ)) = 15099494 := by
    apply rne_eq_of_abs_sub_lt
    rw [abs_lt]
    norm_num
  unfold Fmt.roundQ
  rw [hq, hr]
  norm_num

/-- The computation `(double)(((float)90 / (float)100) * 100.0)` gives
`89.999997615814208984375`, the `float` nearest to `0.9` times 100. -/
theorem fill_percent_90_100 : fill_percent 90 100 = FP.fin (188743675 / 2097152) := by
  have h90 : binary32.roundQ ((90 : ℕ) : ℚ) = 90 := by
    have hq : binary32.quantum ((90 : ℕ) : ℚ) = -17 := by
      rw [binary32.quantum_of_log (e := 6) (by norm_num) (by norm_num)]
      decide
    refine binary32.roundQ_exact _ (90 * 2 ^ 17) ?_
    rw [hq]; norm_num
  have h100 : binary32.roundQ ((100 : ℕ) : ℚ) = 100 := by
    have hq : binary32.quantum ((100 : ℕ) : ℚ) = -17 := by
      rw [binary32.quantum_of_log (e := 6) (by norm_num) (by norm_num)]
      decide
    refine binary32.roundQ_exact _ (100 * 2 ^ 17) ?_
    rw [hq]; norm_num
  have hprod : binary64.roundQ (15099494 / 16777216 * 100) = 188743675 / 2097152 := by
    have hq : binary64.quantum (15099494 / 16777216 * 100) = -46 := by
      rw [binary64.quantum_of_log (e := 6) (by norm_num) (by norm_num)]
      decide
    have hx : binary64.roundQ (15099494 / 16777216 * 100) = 15099494 / 16777216 * 100 := by
      refine binary64.roundQ_exact _ (188743675 * 2 ^ 25) ?_
      rw [hq]; norm_num
    rw [hx]; norm_num
  rw [fill_percent_eq (by decide) (by decide) (by decide), h90, h100]
  have e : (90 : ℚ) / 100 = 9 / 10 := by norm_num
  rw [e, binary32_roundQ_nine_tenths, hprod]

/-! ## The set operation -/

theorem fill_level_of_le {h : ℕ} (hh : h ≤ 10) : fill_level 10 h = 0 := by
  unfold fill_level; rw [if_pos hh]

theorem fill_level_of_gt {h : ℕ} (hh : 10 < h) (hh2 : h < 2 ^ 32) : fill_level 10 h = h - 10 := by
  unfold fill_level u32_sub
  rw [if_neg (by omega)]
  omega

theorem fill_level_le (h : ℕ) (hh2 : h < 2 ^ 32) : fill_level 10 h ≤ h := by
  rcases Nat.lt_or_ge 10 h with hh | hh
  · rw [fill_level_of_gt hh hh2]; omega
  · rw [fill_level_of_le hh]; omega

/-- Run of the set operation when the three paths can be formatted and the
engine returns the height `h`. -/
theorem set_of_read_ok (env : Env σ) (ids : Ids) (inst : ℕ) (value : FP) (s s1 : σ) (h : ℕ)
    (hh2 : h < 2 ^ 32)
    (hf1 : 0 ≤ env.LCZ_SNPRINTK ids.IPSO_OBJECT_FILLING_LEVEL_SENSOR_ID inst
      ids.CONTAINER_HEIGHT_FILLING_SENSOR_RID)
    (hf2 : 0 ≤ env.LCZ_SNPRINTK ids.IPSO_OBJECT_FILLING_LEVEL_SENSOR_ID inst
      ids.ACTUAL_FILL_LEVEL_FILLING_SENSOR_RID)
    (hf3 : 0 ≤ env.LCZ_SNPRINTK ids.IPSO_OBJECT_FILLING_LEVEL_SENSOR_ID inst
      ids.ACTUAL_FILL_PERCENTAGE_FILLING_SENSOR_RID)
    (hread : env.lwm2m_engine_get_u32 (height_path ids inst) s = (0, h, s1)) :
    lcz_lwm2m_fill_level_set env ids inst value s =
      ⟨(env.lwm2m_engine_set_float (percent_path ids inst)
          (fill_percent (fill_level 10 h) h)
          (env.lwm2m_engine_set_u32 (level_path ids inst) (fill_level 10 h) s1).2).1,
        [Call.get_u32 (height_path ids inst),
         Call.set_u32 (level_path ids inst) (fill_level 10 h),
         Call.set_float (percent_path ids inst) (fill_percent (fill_level 10 h) h)],
        (env.lwm2m_engine_set_float (percent_path ids inst)
          (fill_percent (fill_level 10 h) h)
          (env.lwm2m_engine_set_u32 (level_path ids inst) (fill_level 10 h) s1).2).2⟩ := by
  have hmod : h % 2 ^ 32 = h := Nat.mod_eq_of_lt hh2
  simp only [lcz_lwm2m_fill_level_set, height_path, level_path, percent_path] at hread ⊢
  rw [if_neg (not_lt.mpr hf1), hread]
  simp only [ne_eq, not_true_eq_false, if_false, hmod]
  rw [if_neg (not_lt.mpr hf2), if_neg (not_lt.mpr hf3)]

/-- Run of the managed set operation when the object manager resolves the
instance. -/
theorem managed_set_of_resolved (env : Env σ) (ids : Ids) (idx : ℤ) (offset : ℕ) (value : FP)
    (s : σ) (hres : 0 ≤ (resolve env ids idx offset s).1) :
    lcz_lwm2m_managed_fill_level_set env ids idx offset value s =
      ⟨(inner_set env ids idx offset value s).r,
        Call.manage_obj_instance ids.IPSO_OBJECT_FILLING_LEVEL_SENSOR_ID idx offset ::
          (inner_set env ids idx offset value s).log ++
          [Call.manage_obj_deletion (inner_set env ids idx offset value s).r
            ids.IPSO_OBJECT_FILLING_LEVEL_SENSOR_ID idx (resolve env ids idx offset s).1],
        env.lcz_lwm2m_util_manage_obj_deletion (inner_set env ids idx offset value s).r
          ids.IPSO_OBJECT_FILLING_LEVEL_SENSOR_ID idx (resolve env ids idx offset s).1
          (inner_set env ids idx offset value s).st⟩ := by
  simp only [lcz_lwm2m_managed_fill_level_set, resolve, inner_set] at hres ⊢
  rw [if_neg (not_lt.mpr hres)]

/-- Run of the managed set operation when the object manager answers with a
negative code. -/
theorem managed_set_of_unresolved (env : Env σ) (ids : Ids) (idx : ℤ) (offset : ℕ) (value : FP)
    (s : σ) (hres : (resolve env ids idx offset s).1 < 0) :
    lcz_lwm2m_managed_fill_level_set env ids idx offset value s =
      ⟨(resolve env ids idx offset s).1,
        [Call.manage_obj_instance ids.IPSO_OBJECT_FILLING_LEVEL_SENSOR_ID idx offset],
        (resolve env ids idx offset s).2⟩ := by
  simp only [lcz_lwm2m_managed_fill_level_set, resolve] at hres ⊢
  rw [if_pos hres]

theorem set_log_no_deletion (env : Env σ) (ids : Ids) (inst : ℕ) (value : FP) (s : σ) :
    ∀ c ∈ (lcz_lwm2m_fill_level_set env ids inst value s).log, c.isDeletion = false := by
  intro c hc
  simp only [lcz_lwm2m_fill_level_set] at hc
  split_ifs at hc <;> simp at hc <;> rcases hc with rfl | rfl | rfl <;> rfl

/-- Run of the set operation for a height between 1 and the fixed distance:
level 0 and percentage 0 are written. -/
theorem set_height_le_distance (env : Env σ) (ids : Ids) (inst : ℕ) (value : FP) (s s1 : σ)
    (h : ℕ) (hh1 : 1 ≤ h) (hh : h ≤ 10)
    (hf1 : 0 ≤ env.LCZ_SNPRINTK ids.IPSO_OBJECT_FILLING_LEVEL_SENSOR_ID inst
      ids.CONTAINER_HEIGHT_FILLING_SENSOR_RID)
    (hf2 : 0 ≤ env.LCZ_SNPRINTK ids.IPSO_OBJECT_FILLING_LEVEL_SENSOR_ID inst
      ids.ACTUAL_FILL_LEVEL_FILLING_SENSOR_RID)
    (hf3 : 0 ≤ env.LCZ_SNPRINTK ids.IPSO_OBJECT_FILLING_LEVEL_SENSOR_ID inst
      ids.ACTUAL_FILL_PERCENTAGE_FILLING_SENSOR_RID)
    (hread : env.lwm2m_engine_get_u32 (height_path ids inst) s = (0, h, s1)) :
    (lcz_lwm2m_fill_level_set env ids inst value s).log =
      [Call.get_u32 (height_path ids inst), Call.set_u32 (level_path ids inst) 0,
       Call.set_float (percent_path ids inst) (FP.fin 0)] := by
  have hh2 : h < 2 ^ 32 := by omega
  rw [set_of_read_ok env ids inst value s s1 h hh2 hf1 hf2 hf3 hread, fill_level_of_le hh,
    fill_percent_zero_level hh1 hh2]

/-! ## Claims -/

/-- C1: when the engine returns a height `h` with `10 < h < 2 ^ 32` (all paths
being formatted), the set operation writes the level `h - 10` to the
actual-fill-level resource and writes to the actual-fill-percentage resource a
finite value `p` that differs from `(h - 10) / h * 100` by at most the fraction
`2 ^ (-22)` of it, the effect of the three roundings. -/
theorem set_writes_level_and_percentage (env : Env σ) (ids : Ids) (inst : ℕ) (value : FP)
    (s s1 : σ) (h : ℕ) (hh : 10 < h) (hh2 : h < 2 ^ 32)
    (hf1 : 0 ≤ env.LCZ_SNPRINTK ids.IPSO_OBJECT_FILLING_LEVEL_SENSOR_ID inst
      ids.CONTAINER_HEIGHT_FILLING_SENSOR_RID)
    (hf2 : 0 ≤ env.LCZ_SNPRINTK ids.IPSO_OBJECT_FILLING_LEVEL_SENSOR_ID inst
      ids.ACTUAL_FILL_LEVEL_FILLING_SENSOR_RID)
    (hf3 : 0 ≤ env.LCZ_SNPRINTK ids.IPSO_OBJECT_FILLING_LEVEL_SENSOR_ID inst
      ids.ACTUAL_FILL_PERCENTAGE_FILLING_SENSOR_RID)
    (hread : env.lwm2m_engine_get_u32 (height_path ids inst) s = (0, h, s1)) :
    ∃ p : ℚ,
      (lcz_lwm2m_fill_level_set env ids inst value s).log =
        [Call.get_u32 (height_path ids inst), Call.set_u32 (level_path ids inst) (h - 10),
         Call.set_float (percent_path ids inst) (FP.fin p)] ∧
      |p - ((h : ℚ) - 10) / h * 100| ≤ ((h : ℚ) - 10) / h * 100 / 4194304 := by
  have hl : 1 ≤ h - 10 := by omega
  have hlh : h - 10 ≤ h := by omega
  refine ⟨binary64.roundQ
    (binary32.roundQ (binary32.roundQ ((h - 10 : ℕ) : ℚ) / binary32.roundQ (h : ℚ)) * 100), ?_, ?_⟩
  · rw [set_of_read_ok env ids inst value s s1 h hh2 hf1 hf2 hf3 hread, fill_level_of_gt hh hh2,
      fill_percent_eq (by omega) hh2 hlh]
  · have hacc := fill_percent_value_accuracy hl hlh hh2
    have hc : ((h - 10 : ℕ) : ℚ) = (h : ℚ) - 10 := by
      rw [Nat.cast_sub (by omega)]; norm_num
    have e : ((h : ℚ) - 10) / h * 100 = 100 * ((h : ℚ) - 10) / h := by ring
    rw [e, ← hc]
    exact hacc

/-- Witness of C1: a height of 100 gives the level 90 and the percentage
`89.999997615814208984375`, which is within `90 / 2 ^ 22` of 90. -/
theorem set_writes_level_and_percentage_witness :
    ∃ p : ℚ,
      (lcz_lwm2m_fill_level_set (sampleEnv 0 100 0 0 0) (sampleIds true) 5 (FP.fin 37) 0).log =
        [Call.get_u32 (height_path (sampleIds true) 5),
         Call.set_u32 (level_path (sampleIds true) 5) 90,
         Call.set_float (percent_path (sampleIds true) 5) (FP.fin p)] ∧
      |p - 90| ≤ 90 / 4194304 ∧ p = 188743675 / 2097152 := by
  obtain ⟨p, hlog, hp⟩ := set_writes_level_and_percentage (sampleEnv 0 100 0 0 0)
    (sampleIds true) 5 (FP.fin 37) 0 1 100 (by decide) (by decide) (by decide) (by decide)
    (by decide) rfl
  have hl : fill_level 10 100 = 90 := by decide
  have e := set_of_read_ok (sampleEnv 0 100 0 0 0) (sampleIds true) 5 (FP.fin 37) 0 1 100
    (by decide) (by decide) (by decide) (by decide) rfl
  rw [hl, fill_percent_90_100] at e
  rw [e] at hlog
  have hpe : p = 188743675 / 2097152 := by
    simp only [List.cons.injEq, Call.set_float.injEq, FP.fin.injEq, true_and, and_true] at hlog
    exact hlog.symm
  refine ⟨p, ?_, ?_, hpe⟩
  · rw [e, hpe]
  · norm_num at hp ⊢
    exact hp

/-- C2 (run at the failing input): when the engine returns the height 0, the
level written is 0 but the percentage written is a NaN, which is not the
value 0. -/
theorem set_height_zero_run :
    (lcz_lwm2m_fill_level_set (sampleEnv 0 0 0 0 0) (sampleIds true) 5 (FP.fin 37) 0).log =
        [Call.get_u32 (height_path (sampleIds true) 5),
         Call.set_u32 (level_path (sampleIds true) 5) 0,
         Call.set_float (percent_path (sampleIds true) 5) FP.nan] ∧
      FP.nan ≠ FP.fin 0 := by
  refine ⟨?_, by decide⟩
  rw [set_of_read_ok (sampleEnv 0 0 0 0 0) (sampleIds true) 5 (FP.fin 37) 0 1 0 (by decide)
    (by decide) (by decide) (by decide) rfl, fill_level_of_le (by decide), fill_percent_zero_zero]

/-- C3: when the height path is formatted and the engine's read of the height
returns a code other than 0, the set operation returns `-ENOENT`, which is
negative, and its only call is the read: no level write, no percentage
write. -/
theorem set_read_failure (env : Env σ) (ids : Ids) (inst : ℕ) (value : FP) (s : σ)
    (hE : 0 < ids.ENOENT)
    (hf1 : 0 ≤ env.LCZ_SNPRINTK ids.IPSO_OBJECT_FILLING_LEVEL_SENSOR_ID inst
      ids.CONTAINER_HEIGHT_FILLING_SENSOR_RID)
    (hread : (env.lwm2m_engine_get_u32 (height_path ids inst) s).1 ≠ 0) :
    (lcz_lwm2m_fill_level_set env ids inst value s).r = -ids.ENOENT ∧
      (lcz_lwm2m_fill_level_set env ids inst value s).r < 0 ∧
      (lcz_lwm2m_fill_level_set env ids inst value s).log =
        [Call.get_u32 (height_path ids inst)] ∧
      ∀ c ∈ (lcz_lwm2m_fill_level_set env ids inst value s).log, c.isWrite = false := by
  have e : lcz_lwm2m_fill_level_set env ids inst value s =
      ⟨-ids.ENOENT, [Call.get_u32 (height_path ids inst)],
        (env.lwm2m_engine_get_u32 (height_path ids inst) s).2.2⟩ := by
    simp only [lcz_lwm2m_fill_level_set, height_path] at hread ⊢
    rw [if_neg (not_lt.mpr hf1), if_pos hread]
  rw [e]
  refine ⟨rfl, by simpa using hE, rfl, ?_⟩
  intro c hc
  simp at hc
  subst hc
  rfl

/-- Witness of C3: the engine answers the read with the code `-5`. -/
theorem set_read_failure_witness :
    (lcz_lwm2m_fill_level_set (sampleEnv (-5) 100 0 0 0) (sampleIds true) 5 (FP.fin 37) 0).r =
        -(sampleIds true).ENOENT ∧
      (lcz_lwm2m_fill_level_set (sampleEnv (-5) 100 0 0 0) (sampleIds true) 5 (FP.fin 37) 0).r
        < 0 ∧
      (lcz_lwm2m_fill_level_set (sampleEnv (-5) 100 0 0 0) (sampleIds true) 5 (FP.fin 37) 0).log =
        [Call.get_u32 (height_path (sampleIds true) 5)] ∧
      ∀ c ∈
        (lcz_lwm2m_fill_level_set (sampleEnv (-5) 100 0 0 0) (sampleIds true) 5 (FP.fin 37) 0).log,
        c.isWrite = false :=
  set_read_failure (sampleEnv (-5) 100 0 0 0) (sampleIds true) 5 (FP.fin 37) 0 (by decide)
    (by decide) (by decide)

/-- C4: when the three paths are formatted and the height read succeeds, the
result of the set operation is the code returned by the percentage write; it
is the same whatever code the level write returns, so it is 0 when the level
write fails and the percentage write succeeds. -/
theorem set_result_is_percentage_write_result (env : Env σ) (ids : Ids) (inst : ℕ)
    (value : FP) (s s1 : σ) (h : ℕ) (hh2 : h < 2 ^ 32)
    (hf1 : 0 ≤ env.LCZ_SNPRINTK ids.IPSO_OBJECT_FILLING_LEVEL_SENSOR_ID inst
      ids.CONTAINER_HEIGHT_FILLING_SENSOR_RID)
    (hf2 : 0 ≤ env.LCZ_SNPRINTK ids.IPSO_OBJECT_FILLING_LEVEL_SENSOR_ID inst
      ids.ACTUAL_FILL_LEVEL_FILLING_SENSOR_RID)
    (hf3 : 0 ≤ env.LCZ_SNPRINTK ids.IPSO_OBJECT_FILLING_LEVEL_SENSOR_ID inst
      ids.ACTUAL_FILL_PERCENTAGE_FILLING_SENSOR_RID)
    (hread : env.lwm2m_engine_get_u32 (height_path ids inst) s = (0, h, s1)) :
    (lcz_lwm2m_fill_level_set env ids inst value s).r =
        (env.lwm2m_engine_set_float (percent_path ids inst) (fill_percent (fill_level 10 h) h)
          (env.lwm2m_engine_set_u32 (level_path ids inst) (fill_level 10 h) s1).2).1 ∧
      (∀ c : String → ℕ → σ → ℤ,
        (lcz_lwm2m_fill_level_set (env.withLevelWriteCode c) ids inst value s).r =
          (lcz_lwm2m_fill_level_set env ids inst value s).r) ∧
      ((env.lwm2m_engine_set_u32 (level_path ids inst) (fill_level 10 h) s1).1 ≠ 0 →
        (env.lwm2m_engine_set_float (percent_path ids inst) (fill_percent (fill_level 10 h) h)
          (env.lwm2m_engine_set_u32 (level_path ids inst) (fill_level 10 h) s1).2).1 = 0 →
        (lcz_lwm2m_fill_level_set env ids inst value s).r = 0) := by
  have e := set_of_read_ok env ids inst value s s1 h hh2 hf1 hf2 hf3 hread
  refine ⟨by rw [e], ?_, ?_⟩
  · intro c
    have e2 := set_of_read_ok (env.withLevelWriteCode c) ids inst value s s1 h hh2 hf1 hf2 hf3
      hread
    rw [e, e2]
    rfl
  · intro _ h0
    rw [e]; exact h0

/-- Witness of C4: the level write answers `-5`, the percentage write answers
0, and the set operation returns 0. -/
theorem set_result_is_percentage_write_result_witness :
    (lcz_lwm2m_fill_level_set (sampleEnv 0 100 (-5) 0 0) (sampleIds true) 5 (FP.fin 37) 0).r =
      0 :=
  (set_result_is_percentage_write_result (sampleEnv 0 100 (-5) 0 0) (sampleIds true) 5
    (FP.fin 37) 0 1 100 (by decide) (by decide) (by decide) (by decide) rfl).2.2
    (by decide) rfl

/-- C5 (as stated, refuted): the instance is resolved to 7, the inner set
operation returns 0, and `lcz_lwm2m_util_manage_obj_deletion` is called all the
same, with the code 0. -/
theorem managed_set_calls_deletion_on_success :
    (inner_set (sampleEnv 0 100 0 0 7) (sampleIds true) 2 4 (FP.fin 37) 0).r = 0 ∧
      Call.manage_obj_deletion 0 3435 2 7 ∈
        (lcz_lwm2m_managed_fill_level_set (sampleEnv 0 100 0 0 7) (sampleIds true) 2 4
          (FP.fin 37) 0).log := by
  have e : inner_set (sampleEnv 0 100 0 0 7) (sampleIds true) 2 4 (FP.fin 37) 0 = _ :=
    set_of_read_ok (sampleEnv 0 100 0 0 7) (sampleIds true) (int_to_u16 7) (FP.fin 37)
      1 2 100 (by decide) (by decide) (by decide) (by decide) rfl
  have hr : (inner_set (sampleEnv 0 100 0 0 7) (sampleIds true) 2 4 (FP.fin 37) 0).r = 0 := by
    rw [e]; rfl
  refine ⟨hr, ?_⟩
  rw [managed_set_of_resolved (sampleEnv 0 100 0 0 7) (sampleIds true) 2 4 (FP.fin 37) 0
    (by decide)]
  show Call.manage_obj_deletion 0 3435 2 7 ∈
    Call.manage_obj_instance 3435 2 4 ::
      ((inner_set (sampleEnv 0 100 0 0 7) (sampleIds true) 2 4 (FP.fin 37) 0).log ++
        [Call.manage_obj_deletion
          (inner_set (sampleEnv 0 100 0 0 7) (sampleIds true) 2 4 (FP.fin 37) 0).r 3435 2 7])
  rw [hr]
  simp

/-- C5 (amended): whenever the instance is resolved, the managed set operation
calls `lcz_lwm2m_util_manage_obj_deletion` exactly once, as its last call,
whatever the inner set operation returned, and passes it that result code with
the type, the index and the resolved instance. -/
theorem managed_set_always_calls_deletion (env : Env σ) (ids : Ids) (idx : ℤ) (offset : ℕ)
    (value : FP) (s : σ) (hres : 0 ≤ (resolve env ids idx offset s).1) :
    (lcz_lwm2m_managed_fill_level_set env ids idx offset value s).log =
        Call.manage_obj_instance ids.IPSO_OBJECT_FILLING_LEVEL_SENSOR_ID idx offset ::
          (inner_set env ids idx offset value s).log ++
          [Call.manage_obj_deletion (inner_set env ids idx offset value s).r
            ids.IPSO_OBJECT_FILLING_LEVEL_SENSOR_ID idx (resolve env ids idx offset s).1] ∧
      ((lcz_lwm2m_managed_fill_level_set env ids idx offset value s).log.filter
        Call.isDeletion).length = 1 := by
  have e := managed_set_of_resolved env ids idx offset value s hres
  rw [e]
  refine ⟨rfl, ?_⟩
  have hno := set_log_no_deletion env ids (int_to_u16 (resolve env ids idx offset s).1) value
    (resolve env ids idx offset s).2
  have hnil : ∀ l : List Call, (∀ c ∈ l, c.isDeletion = false) →
      l.filter Call.isDeletion = [] := by
    intro l hl
    rw [List.filter_eq_nil_iff]
    intro c hc
    rw [hl c hc]; decide
  show ((Call.manage_obj_instance ids.IPSO_OBJECT_FILLING_LEVEL_SENSOR_ID idx offset ::
    (inner_set env ids idx offset value s).log ++
      [Call.manage_obj_deletion (inner_set env ids idx offset value s).r
        ids.IPSO_OBJECT_FILLING_LEVEL_SENSOR_ID idx (resolve env ids idx offset s).1]).filter
      Call.isDeletion).length = 1
  rw [List.cons_append, List.filter_cons, List.filter_append, hnil _ hno]
  simp [Call.isDeletion]

/-- Witness of C5 (amended): the instance is resolved to 7 and the inner set
operation fails on the height read. -/
theorem managed_set_always_calls_deletion_witness :
    (lcz_lwm2m_managed_fill_level_set (sampleEnv (-5) 100 0 0 7) (sampleIds true) 2 4
        (FP.fin 37) 0).log =
        Call.manage_obj_instance (sampleIds true).IPSO_OBJECT_FILLING_LEVEL_SENSOR_ID 2 4 ::
          (inner_set (sampleEnv (-5) 100 0 0 7) (sampleIds true) 2 4 (FP.fin 37) 0).log ++
          [Call.manage_obj_deletion
            (inner_set (sampleEnv (-5) 100 0 0 7) (sampleIds true) 2 4 (FP.fin 37) 0).r
            (sampleIds true).IPSO_OBJECT_FILLING_LEVEL_SENSOR_ID 2
            (resolve (sampleEnv (-5) 100 0 0 7) (sampleIds true) 2 4 0).1] ∧
      ((lcz_lwm2m_managed_fill_level_set (sampleEnv (-5) 100 0 0 7) (sampleIds true) 2 4
        (FP.fin 37) 0).log.filter Call.isDeletion).length = 1 :=
  managed_set_always_calls_deletion (sampleEnv (-5) 100 0 0 7) (sampleIds true) 2 4 (FP.fin 37)
    0 (by decide)

/-- C6: if the object manager answers the resolution with a negative code, the
managed set operation returns that code and its only call is the resolution
(no height read, no write, no deletion call); if the instance is resolved, it
returns the result of the inner set operation on the resolved instance. -/
theorem managed_set_result (env : Env σ) (ids : Ids) (idx : ℤ) (offset : ℕ) (value : FP)
    (s : σ) :
    ((resolve env ids idx offset s).1 < 0 →
        (lcz_lwm2m_managed_fill_level_set env ids idx offset value s).r =
          (resolve env ids idx offset s).1 ∧
        (lcz_lwm2m_managed_fill_level_set env ids idx offset value s).log =
          [Call.manage_obj_instance ids.IPSO_OBJECT_FILLING_LEVEL_SENSOR_ID idx offset] ∧
        ∀ c ∈ (lcz_lwm2m_managed_fill_level_set env ids idx offset value s).log,
          c.isRead = false ∧ c.isWrite = false ∧ c.isDeletion = false) ∧
      (0 ≤ (resolve env ids idx offset s).1 →
        (lcz_lwm2m_managed_fill_level_set env ids idx offset value s).r =
          (lcz_lwm2m_fill_level_set env ids (int_to_u16 (resolve env ids idx offset s).1) value
            (resolve env ids idx offset s).2).r ∧
        ((resolve env ids idx offset s).1 < 65536 →
          ((int_to_u16 (resolve env ids idx offset s).1 : ℕ) : ℤ) =
            (resolve env ids idx offset s).1)) := by
  constructor
  · intro hneg
    rw [managed_set_of_unresolved env ids idx offset value s hneg]
    refine ⟨rfl, rfl, ?_⟩
    intro c hc
    simp at hc
    subst hc
    exact ⟨rfl, rfl, rfl⟩
  · intro hres
    rw [managed_set_of_resolved env ids idx offset value s hres]
    refine ⟨rfl, ?_⟩
    intro hlt
    unfold int_to_u16
    omega

/-- Witness of C6: a resolution that answers `-12`, and a resolution that
answers the instance 7. -/
theorem managed_set_result_witness :
    ((lcz_lwm2m_managed_fill_level_set (sampleEnv 0 100 0 0 (-12)) (sampleIds true) 2 4
          (FP.fin 37) 0).r = -12 ∧
        (lcz_lwm2m_managed_fill_level_set (sampleEnv 0 100 0 0 (-12)) (sampleIds true) 2 4
          (FP.fin 37) 0).log = [Call.manage_obj_instance 3435 2 4]) ∧
      (lcz_lwm2m_managed_fill_level_set (sampleEnv 0 100 0 (-22) 7) (sampleIds true) 2 4
          (FP.fin 37) 0).r =
        (lcz_lwm2m_fill_level_set (sampleEnv 0 100 0 (-22) 7) (sampleIds true) 7
          (FP.fin 37) 1).r :=
  ⟨⟨((managed_set_result (sampleEnv 0 100 0 0 (-12)) (sampleIds true) 2 4 (FP.fin 37) 0).1
        (by decide)).1,
      ((managed_set_result (sampleEnv 0 100 0 0 (-12)) (sampleIds true) 2 4 (FP.fin 37) 0).1
        (by decide)).2.1⟩,
    ((managed_set_result (sampleEnv 0 100 0 (-22) 7) (sampleIds true) 2 4 (FP.fin 37) 0).2
      (by decide)).1⟩

/-- C7: the creation callback returns 0 and always ends with the five
deletions of resource instance 0 (average fill speed, forecast-full date,
forecast-empty date, out-of-location, out-of-position); with persistent
configuration enabled they are preceded by exactly three loads and three
registrations of `fill_sensor_write_cb` (height, high threshold, low
threshold), and with it disabled by nothing. -/
theorem create_fill_level_sensor_calls (env : Env σ) (ids : Ids) (idx : ℤ) (type inst : ℕ)
    (s : σ) :
    (create_fill_level_sensor env ids idx type inst s).r = 0 ∧
      (create_fill_level_sensor env ids idx type inst s).log.filter Call.isDelResInst =
        [Call.del_res_inst type inst ids.AVERAGE_FILL_SPEED_FILLING_SENSOR_RID 0,
         Call.del_res_inst type inst ids.FORECAST_FULL_DATE_FILLING_SENSOR_RID 0,
         Call.del_res_inst type inst ids.FORECAST_EMPTY_DATE_FILLING_SENSOR_RID 0,
         Call.del_res_inst type inst ids.CONTAINER_OUT_OF_LOCATION_FILLING_SENSOR_RID 0,
         Call.del_res_inst type inst ids.CONTAINER_OUT_OF_POSITION_FILLING_SENSOR_RID 0] ∧
      (create_fill_level_sensor env ids idx type inst s).log.filter Call.isLoad =
        (if ids.CONFIG_LCZ_LWM2M_UTIL_CONFIG_DATA then
          [Call.load_config type inst ids.CONTAINER_HEIGHT_FILLING_SENSOR_RID 4,
           Call.load_config type inst ids.HIGH_THRESHOLD_PERCENTAGE_FILLING_SENSOR_RID 8,
           Call.load_config type inst ids.LOW_THRESHOLD_PERCENTAGE_FILLING_SENSOR_RID 8]
         else []) ∧
      (create_fill_level_sensor env ids idx type inst s).log.filter Call.isRegister =
        (if ids.CONFIG_LCZ_LWM2M_UTIL_CONFIG_DATA then
          [Call.reg_post_write_cb type inst ids.CONTAINER_HEIGHT_FILLING_SENSOR_RID
             Callback.fill_sensor_write_cb,
           Call.reg_post_write_cb type inst ids.HIGH_THRESHOLD_PERCENTAGE_FILLING_SENSOR_RID
             Callback.fill_sensor_write_cb,
           Call.reg_post_write_cb type inst ids.LOW_THRESHOLD_PERCENTAGE_FILLING_SENSOR_RID
             Callback.fill_sensor_write_cb]
         else []) ∧
      (create_fill_level_sensor env ids idx type inst s).log.length =
        (if ids.CONFIG_LCZ_LWM2M_UTIL_CONFIG_DATA then 11 else 5) := by
  cases hc : ids.CONFIG_LCZ_LWM2M_UTIL_CONFIG_DATA <;>
    simp [create_fill_level_sensor, restore_and_register, hc, Call.isDelResInst, Call.isLoad,
      Call.isRegister]

/-- C8: the set operation does not depend on its `value` argument: two runs
from the same engine state with different values give the same result code,
the same calls with the same level and percentage, and the same final state
(and so does the managed set operation); every level written is computed from
the height that was read and the fixed distance 10. -/
theorem set_ignores_value (env : Env σ) (ids : Ids) (inst : ℕ) (idx : ℤ) (offset : ℕ)
    (v1 v2 : FP) (s : σ) :
    lcz_lwm2m_fill_level_set env ids inst v1 s = lcz_lwm2m_fill_level_set env ids inst v2 s ∧
      lcz_lwm2m_managed_fill_level_set env ids idx offset v1 s =
        lcz_lwm2m_managed_fill_level_set env ids idx offset v2 s ∧
      ∀ p l, Call.set_u32 p l ∈ (lcz_lwm2m_fill_level_set env ids inst v1 s).log →
        l = fill_level 10 ((env.lwm2m_engine_get_u32 (height_path ids inst) s).2.1 % 2 ^ 32) := by
  refine ⟨rfl, rfl, ?_⟩
  intro p l hl
  simp only [lcz_lwm2m_fill_level_set] at hl
  split_ifs at hl <;> simp at hl
  · exact hl.2
  · exact hl.2

/-- Witness of C8: with the height 100 the level written is 90 for the value
37 as for any other. -/
theorem set_ignores_value_witness :
    (90 : ℕ) = fill_level 10
      (((sampleEnv 0 100 0 0 0).lwm2m_engine_get_u32 (height_path (sampleIds true) 5) 0).2.1 %
        2 ^ 32) :=
  (set_ignores_value (sampleEnv 0 100 0 0 0) (sampleIds true) 5 2 4 (FP.fin 37) (FP.fin 1)
    0).2.2 (level_path (sampleIds true) 5) 90 (by
      rw [set_of_read_ok (sampleEnv 0 100 0 0 0) (sampleIds true) 5 (FP.fin 37) 0 1 100
        (by decide) (by decide) (by decide) (by decide) rfl,
        show fill_level 10 100 = 90 by decide]
      simp)

/-- C9: when the height path is formatted and the engine returns the height 0,
every percentage that the set operation writes is a NaN (`0.0f / 0.0f`), not a
finite number; and when the other two paths are formatted too, the operation
does write it, after the level 0. -/
theorem set_height_zero_percentage_nan (env : Env σ) (ids : Ids) (inst : ℕ) (value : FP)
    (s s1 : σ)
    (hf1 : 0 ≤ env.LCZ_SNPRINTK ids.IPSO_OBJECT_FILLING_LEVEL_SENSOR_ID inst
      ids.CONTAINER_HEIGHT_FILLING_SENSOR_RID)
    (hread : env.lwm2m_engine_get_u32 (height_path ids inst) s = (0, 0, s1)) :
    (∀ p v, Call.set_float p v ∈ (lcz_lwm2m_fill_level_set env ids inst value s).log →
        v = FP.nan ∧ ∀ q : ℚ, v ≠ FP.fin q) ∧
      (0 ≤ env.LCZ_SNPRINTK ids.IPSO_OBJECT_FILLING_LEVEL_SENSOR_ID inst
          ids.ACTUAL_FILL_LEVEL_FILLING_SENSOR_RID →
        0 ≤ env.LCZ_SNPRINTK ids.IPSO_OBJECT_FILLING_LEVEL_SENSOR_ID inst
          ids.ACTUAL_FILL_PERCENTAGE_FILLING_SENSOR_RID →
        (lcz_lwm2m_fill_level_set env ids inst value s).log =
          [Call.get_u32 (height_path ids inst), Call.set_u32 (level_path ids inst) 0,
           Call.set_float (percent_path ids inst) FP.nan]) := by
  have hl : fill_level 10 0 = 0 := fill_level_of_le (by decide)
  constructor
  · intro p v hv
    have hnan : v = FP.nan := by
      simp only [lcz_lwm2m_fill_level_set, height_path] at hread hv
      rw [if_neg (not_lt.mpr hf1), hread] at hv
      simp only [ne_eq, not_true_eq_false, if_false, Nat.zero_mod, hl,
        fill_percent_zero_zero] at hv
      split_ifs at hv <;> simp at hv
      exact hv.2
    refine ⟨hnan, ?_⟩
    intro q hq
    rw [hnan] at hq
    exact FP.noConfusion hq
  · intro hf2 hf3
    rw [set_of_read_ok env ids inst value s s1 0 (by decide) hf1 hf2 hf3 hread, hl,
      fill_percent_zero_zero]

/-- Witness of C9: the scripted engine returns the height 0. -/
theorem set_height_zero_percentage_nan_witness :
    (lcz_lwm2m_fill_level_set (sampleEnv 0 0 0 0 0) (sampleIds false) 9 (FP.fin 2) 0).log =
      [Call.get_u32 (height_path (sampleIds false) 9),
       Call.set_u32 (level_path (sampleIds false) 9) 0,
       Call.set_float (percent_path (sampleIds false) 9) FP.nan] :=
  (set_height_zero_percentage_nan (sampleEnv 0 0 0 0 0) (sampleIds false) 9 (FP.fin 2) 0 1
    (by decide) rfl).2 (by decide) (by decide)

/-- C10: for a height `h` with `1 ≤ h < 2 ^ 32` the computed level is
`max 0 (h - 10)` as an integer (no wraparound), at most `h` and below `2 ^ 32`,
the computed percentage is finite and between 0 and 100, and these are the
values written when the paths are formatted and the read succeeds. -/
theorem set_level_and_percentage_in_range (env : Env σ) (ids : Ids) (inst : ℕ) (value : FP)
    (s s1 : σ) (h : ℕ) (hh1 : 1 ≤ h) (hh2 : h < 2 ^ 32)
    (hf1 : 0 ≤ env.LCZ_SNPRINTK ids.IPSO_OBJECT_FILLING_LEVEL_SENSOR_ID inst
      ids.CONTAINER_HEIGHT_FILLING_SENSOR_RID)
    (hf2 : 0 ≤ env.LCZ_SNPRINTK ids.IPSO_OBJECT_FILLING_LEVEL_SENSOR_ID inst
      ids.ACTUAL_FILL_LEVEL_FILLING_SENSOR_RID)
    (hf3 : 0 ≤ env.LCZ_SNPRINTK ids.IPSO_OBJECT_FILLING_LEVEL_SENSOR_ID inst
      ids.ACTUAL_FILL_PERCENTAGE_FILLING_SENSOR_RID)
    (hread : env.lwm2m_engine_get_u32 (height_path ids inst) s = (0, h, s1)) :
    ∃ (level : ℕ) (pct : ℚ),
      (lcz_lwm2m_fill_level_set env ids inst value s).log =
        [Call.get_u32 (height_path ids inst), Call.set_u32 (level_path ids inst) level,
         Call.set_float (percent_path ids inst) (FP.fin pct)] ∧
      level = fill_level 10 h ∧ FP.fin pct = fill_percent (fill_level 10 h) h ∧
      ((level : ℤ) = max 0 ((h : ℤ) - 10)) ∧ level ≤ h ∧ level < 2 ^ 32 ∧
      0 ≤ pct ∧ pct ≤ 100 := by
  have hle := fill_level_le h hh2
  have hb := fill_percent_value_bounds hh1 hle
  have hint : ((fill_level 10 h : ℕ) : ℤ) = max 0 ((h : ℤ) - 10) := by
    rcases Nat.lt_or_ge 10 h with hh | hh
    · rw [fill_level_of_gt hh hh2]; omega
    · rw [fill_level_of_le hh]; omega
  refine ⟨fill_level 10 h, _, ?_, rfl, (fill_percent_eq hh1 hh2 hle).symm, hint, hle,
    lt_of_le_of_lt hle hh2, hb.1, hb.2⟩
  rw [set_of_read_ok env ids inst value s s1 h hh2 hf1 hf2 hf3 hread,
    fill_percent_eq hh1 hh2 hle]

/-- Witness of C10: the largest height, `2 ^ 32 - 1`. -/
theorem set_level_and_percentage_in_range_witness :
    ∃ (level : ℕ) (pct : ℚ),
      (lcz_lwm2m_fill_level_set (sampleEnv 0 4294967295 0 0 0) (sampleIds true) 5 (FP.fin 37)
          0).log =
        [Call.get_u32 (height_path (sampleIds true) 5),
         Call.set_u32 (level_path (sampleIds true) 5) level,
         Call.set_float (percent_path (sampleIds true) 5) (FP.fin pct)] ∧
      level = fill_level 10 4294967295 ∧
      FP.fin pct = fill_percent (fill_level 10 4294967295) 4294967295 ∧
      ((level : ℤ) = max 0 (((4294967295 : ℕ) : ℤ) - 10)) ∧ level ≤ 4294967295 ∧
      level < 2 ^ 32 ∧ 0 ≤ pct ∧ pct ≤ 100 :=
  set_level_and_percentage_in_range (sampleEnv 0 4294967295 0 0 0) (sampleIds true) 5
    (FP.fin 37) 0 1 4294967295 (by decide) (by decide) (by decide) (by decide) (by decide) rfl

end FillLevel
